import Mathlib

/-!
Shallow embedding of the SimpliMath interpreter (src/base.py).

Python strings are modelled as Lean `String` (a list of characters in this
toolchain); the helper functions below mirror the Python string operations
used by the interpreter (`strip`, `split`, slicing, `in`, `startswith`,
`endswith`, `str.replace(old, new, 1)`, `str.index`).

Python `float` is idealised as `Rat` (no claim under consideration depends
on rounding), and `time.sleep`, `print` and `input()` are modelled as events
recorded in an explicit trace, with the stdin stream passed in as a list of
lines.
-/

/-- Characters treated as whitespace by Python `str.strip`. -/
def isPySpace (c : Char) : Bool :=
  c = ' ' || c = '\t' || c = '\n' || c = '\r' || c = '\x0b' || c = '\x0c'

def pyStripList (l : List Char) : List Char :=
  ((l.dropWhile isPySpace).reverse.dropWhile isPySpace).reverse

/-- Python `s.strip()`. -/
def pyStrip (s : String) : String :=
  String.mk (pyStripList s.toList)

/-- Python slice `s[start:stop]` for nonnegative bounds (clamping like Python). -/
def pySubstr (s : String) (start stop : Nat) : String :=
  String.mk ((s.toList.take stop).drop start)

def isPrefixList : List Char → List Char → Bool
  | [], _ => true
  | _ :: _, [] => false
  | a :: p, b :: t => a = b && isPrefixList p t

/-- Python `s.startswith(pre)`. -/
def pyStartsWith (s pre : String) : Bool :=
  isPrefixList pre.toList s.toList

/-- Python `s.endswith(suf)`. -/
def pyEndsWith (s suf : String) : Bool :=
  isPrefixList suf.toList.reverse s.toList.reverse

/-- Index of the first occurrence of `p` as a contiguous sublist, like Python
`str.index` / `str.find`. -/
def idxOfSub (p : List Char) : List Char → Option Nat
  | [] => if isPrefixList p [] then some 0 else none
  | c :: rest =>
      if isPrefixList p (c :: rest) then some 0
      else (idxOfSub p rest).map (· + 1)

/-- Python `sub in s`. -/
def strContains (s sub : String) : Bool :=
  (idxOfSub sub.toList s.toList).isSome

/-- Replace the first occurrence of `p` by `r`, like Python `t.replace(p, r, 1)`. -/
def replaceFirstList (p r : List Char) : List Char → List Char
  | [] => if isPrefixList p [] then r else []
  | c :: rest =>
      if isPrefixList p (c :: rest) then r ++ (c :: rest).drop p.length
      else c :: replaceFirstList p r rest

def replaceFirstStr (t p r : String) : String :=
  String.mk (replaceFirstList p.toList r.toList t.toList)

/-- Python `s.split(sep, 1)` when `sep` occurs, as the two pieces. -/
def splitFirstList (sep : Char) : List Char → Option (List Char × List Char)
  | [] => none
  | c :: rest =>
      if c = sep then some ([], rest)
      else (splitFirstList sep rest).map (fun p => (c :: p.1, p.2))

def pySplitFirst (s : String) (sep : Char) : Option (String × String) :=
  (splitFirstList sep s.toList).map (fun p => (String.mk p.1, String.mk p.2))

def splitOnChar (sep : Char) : List Char → List (List Char)
  | [] => [[]]
  | c :: rest =>
      let r := splitOnChar sep rest
      if c = sep then [] :: r
      else
        match r with
        | h :: t => (c :: h) :: t
        | [] => [[c]]

/-- Python `s.split("\n")`. -/
def pySplitNL (s : String) : List String :=
  (splitOnChar '\n' s.toList).map String.mk

def pyIsEmpty (s : String) : Bool :=
  s.toList.isEmpty

def isIdentStart (c : Char) : Bool := c.isAlpha || c = '_'

def isIdentChar (c : Char) : Bool := c.isAlphanum || c = '_'

/-- Python `str.isidentifier` (restricted to ASCII identifiers). -/
def pyIsIdentifier (s : String) : Bool :=
  match s.toList with
  | [] => false
  | c :: rest => isIdentStart c && rest.all isIdentChar

def digitsVal (l : List Char) : Nat :=
  l.foldl (fun acc c => 10 * acc + (c.toNat - 48)) 0

/-- Python `int(s)` on a line of text: optional surrounding whitespace,
optional sign, then decimal digits; `none` models `ValueError`. -/
def pyParseInt (s : String) : Option Int :=
  match pyStripList s.toList with
  | '+' :: ds => if ds ≠ [] ∧ ds.all Char.isDigit then some (digitsVal ds) else none
  | '-' :: ds => if ds ≠ [] ∧ ds.all Char.isDigit then some (-(digitsVal ds : Int)) else none
  | ds => if ds ≠ [] ∧ ds.all Char.isDigit then some (digitsVal ds) else none

/-! ### Values, errors and events -/

/-- A SimpliMath value: Python `int`, `float` (idealised as `Rat`) or `str`. -/
inductive Value where
  | vInt (n : Int)
  | vFloat (q : Rat)
  | vStr (s : String)
deriving DecidableEq

/-- The exceptions the interpreter can raise, with their messages. -/
inductive SMErr where
  | syntaxError (msg : String)
  | runtimeError (msg : String)
  | eofError (msg : String)
  | valueError (msg : String)
deriving DecidableEq

/-- Result of an interpreter operation: success, a raised exception, or
(for the `format_string` loop) divergence, reported when the step fuel of
the model runs out. -/
inductive SMRes (α : Type) where
  | ok (a : α)
  | err (e : SMErr)
  | divergent
deriving DecidableEq

/-- Observable events: `print`, reading a line from stdin, `time.sleep`. -/
inductive Event where
  | print (s : String)
  | read (s : String)
  | sleep (q : Rat)
deriving DecidableEq

/-- The mutable fields of a `SimpliMath` instance (`self.variables` is
named `vars` because `variables` is a reserved token in Lean 4). -/
structure SMState where
  vars : List (String × Value)
  outputs : List String
  inputs : List (Option String × String)
  code_running : Bool
  hold : Bool
deriving DecidableEq

def initState : SMState :=
  { vars := [], outputs := [], inputs := [], code_running := true, hold := false }

/-- Python dict lookup `k in d` / `d[k]`. -/
def lookupVar : List (String × Value) → String → Option Value
  | [], _ => none
  | (k, v) :: rest, key => if k = key then some v else lookupVar rest key

/-- Python dict update `d[k] = v` (replaces in place, else appends). -/
def setVar : List (String × Value) → String → Value → List (String × Value)
  | [], k, v => [(k, v)]
  | (k', v') :: rest, k, v =>
      if k' = k then (k, v) :: rest else (k', v') :: setVar rest k v

/-- Python `str(value)`; float rendering is an idealisation of `repr(float)`. -/
def strOfValue : Value → String
  | .vInt n => toString n
  | .vStr s => s
  | .vFloat q => toString q.num ++ (if q.den = 1 then ".0" else "/" ++ toString q.den)

/-! ### The expression evaluator (`evaluate_expression`)

`ast.parse(expr, mode='eval')` is modelled by a tokenizer and recursive
descent parser for the fragment of Python expressions the interpreter
supports: decimal int/float literals, quoted string literals, identifiers,
parentheses and left-associative binary `+ - * /`.  Everything else
(including Python keywords, which either fail to parse or produce AST nodes
`_eval` rejects) is a parse failure; in the source every such failure and
every `_eval` exception is caught by the same handler and re-raised as
`SyntaxError "Invalid arithmetic or string expression: <expr>"`, so the two
failure modes are observationally identical. -/

inductive NumLit where
  | intL (n : Nat)
  | floatL (q : Rat)
deriving DecidableEq

inductive Tok where
  | tnum (v : NumLit)
  | tstr (s : String)
  | tid (l : List Char)
  | tplus
  | tminus
  | tstar
  | tslash
  | tlp
  | trp
deriving DecidableEq

/-- Python string-escape processing for the common escapes (unknown escapes
keep the backslash, as in Python). -/
def escMap (c : Char) : List Char :=
  if c = 'n' then ['\n']
  else if c = 't' then ['\t']
  else if c = 'r' then ['\r']
  else if c = '\\' then ['\\']
  else if c = '\'' then ['\'']
  else if c = '"' then ['"']
  else ['\\', c]

/-- Scan a string literal body up to the closing quote `q`; the `Bool` flag
records a pending backslash. `none` models an unterminated literal. -/
def strLitScan (q : Char) : Bool → List Char → Option (List Char × List Char)
  | _, [] => none
  | true, c :: rest =>
      (strLitScan q false rest).map (fun p => (escMap c ++ p.1, p.2))
  | false, c :: rest =>
      if c = q then some ([], rest)
      else if c = '\\' then strLitScan q true rest
      else (strLitScan q false rest).map (fun p => (c :: p.1, p.2))

def tokenizeAux : Nat → List Char → Option (List Tok)
  | _, [] => some []
  | 0, _ :: _ => none
  | n + 1, c :: cs =>
      if isPySpace c then tokenizeAux n cs
      else if isIdentStart c then
        let tk := (c :: cs).takeWhile isIdentChar
        let rest := (c :: cs).dropWhile isIdentChar
        (tokenizeAux n rest).map (fun ts => .tid tk :: ts)
      else if c.isDigit then
        let ds := (c :: cs).takeWhile Char.isDigit
        let rest := (c :: cs).dropWhile Char.isDigit
        match rest with
        | '.' :: rest2 =>
            let fs := rest2.takeWhile Char.isDigit
            let rest3 := rest2.dropWhile Char.isDigit
            (tokenizeAux n rest3).map (fun ts =>
              .tnum (.floatL ((digitsVal ds : Rat) +
                (digitsVal fs : Rat) / ((10 : Rat) ^ fs.length))) :: ts)
        | _ => (tokenizeAux n rest).map (fun ts => .tnum (.intL (digitsVal ds)) :: ts)
      else if c = '"' || c = '\'' then
        match strLitScan c false cs with
        | none => none
        | some (lit, rest) =>
            (tokenizeAux n rest).map (fun ts => .tstr (String.mk lit) :: ts)
      else if c = '+' then (tokenizeAux n cs).map (fun ts => .tplus :: ts)
      else if c = '-' then (tokenizeAux n cs).map (fun ts => .tminus :: ts)
      else if c = '*' then (tokenizeAux n cs).map (fun ts => .tstar :: ts)
      else if c = '/' then (tokenizeAux n cs).map (fun ts => .tslash :: ts)
      else if c = '(' then (tokenizeAux n cs).map (fun ts => .tlp :: ts)
      else if c = ')' then (tokenizeAux n cs).map (fun ts => .trp :: ts)
      else none

def tokenize (l : List Char) : Option (List Tok) :=
  tokenizeAux (l.length + 1) l

/-- Python keywords: bare occurrences either fail `ast.parse` or produce
nodes (`True`/`False`/`None` constants) that `_eval` rejects; both are the
same observable failure, so the model rejects them at parse time. -/
def pyKeywords : List String :=
  ["False", "None", "True", "and", "as", "assert", "async", "await", "break",
   "class", "continue", "def", "del", "elif", "else", "except", "finally",
   "for", "from", "global", "if", "in", "is", "lambda", "nonlocal",
   "not", "or", "pass", "raise", "return", "try", "while", "with", "yield",
   "import"]

inductive BOp where
  | add
  | sub
  | mul
  | div
deriving DecidableEq

/-- The restricted expression AST (`ast.BinOp`/`ast.Num`/`ast.Str`/`ast.Name`). -/
inductive Expr where
  | numE (v : NumLit)
  | strE (s : String)
  | nameE (id : String)
  | binopE (op : BOp) (l r : Expr)
deriving DecidableEq

mutual

def pExprF : Nat → List Tok → Option (Expr × List Tok)
  | 0, _ => none
  | n + 1, ts =>
      match pTermF n ts with
      | none => none
      | some (e, ts') => pExprRest n e ts'

def pExprRest : Nat → Expr → List Tok → Option (Expr × List Tok)
  | 0, _, _ => none
  | n + 1, acc, Tok.tplus :: ts =>
      match pTermF n ts with
      | none => none
      | some (r, ts') => pExprRest n (.binopE .add acc r) ts'
  | n + 1, acc, Tok.tminus :: ts =>
      match pTermF n ts with
      | none => none
      | some (r, ts') => pExprRest n (.binopE .sub acc r) ts'
  | _ + 1, acc, ts => some (acc, ts)

def pTermF : Nat → List Tok → Option (Expr × List Tok)
  | 0, _ => none
  | n + 1, ts =>
      match pPrimF n ts with
      | none => none
      | some (e, ts') => pTermRest n e ts'

def pTermRest : Nat → Expr → List Tok → Option (Expr × List Tok)
  | 0, _, _ => none
  | n + 1, acc, Tok.tstar :: ts =>
      match pPrimF n ts with
      | none => none
      | some (r, ts') => pTermRest n (.binopE .mul acc r) ts'
  | n + 1, acc, Tok.tslash :: ts =>
      match pPrimF n ts with
      | none => none
      | some (r, ts') => pTermRest n (.binopE .div acc r) ts'
  | _ + 1, acc, ts => some (acc, ts)

def pPrimF : Nat → List Tok → Option (Expr × List Tok)
  | 0, _ => none
  | _ + 1, Tok.tnum v :: ts => some (.numE v, ts)
  | _ + 1, Tok.tstr s :: ts => some (.strE s, ts)
  | _ + 1, Tok.tid l :: ts =>
      if String.mk l ∈ pyKeywords then none else some (.nameE (String.mk l), ts)
  | n + 1, Tok.tlp :: ts =>
      match pExprF n ts with
      | some (e, Tok.trp :: ts') => some (e, ts')
      | _ => none
  | _ + 1, _ => none

end

/-- Model of `ast.parse(expr, mode='eval')` restricted to the supported
grammar; `none` covers both parse failures and node kinds `_eval` rejects. -/
def parseExprString (s : String) : Option Expr :=
  match tokenize s.toList with
  | none => none
  | some ts =>
      match pExprF (3 * ts.length + 3) ts with
      | some (e, []) => some e
      | _ => none

inductive EvalErr where
  | parseFail
  | undefinedVar (n : String)
  | typeErr
  | zeroDiv
deriving DecidableEq

def repeatList (l : List Char) : Nat → List Char
  | 0 => []
  | n + 1 => l ++ repeatList l n

/-- Python `s * n` for a string and an int. -/
def pyStrRepeat (s : String) (n : Int) : String :=
  String.mk (repeatList s.toList n.toNat)

/-- The `ops` table applied to evaluated operands, with Python's numeric
promotion, string concatenation / repetition, `TypeError` on mismatched
operands and `ZeroDivisionError` on division by zero. -/
def applyBinOp : BOp → Value → Value → Except EvalErr Value
  | .add, .vInt a, .vInt b => .ok (.vInt (a + b))
  | .add, .vInt a, .vFloat b => .ok (.vFloat ((a : Rat) + b))
  | .add, .vFloat a, .vInt b => .ok (.vFloat (a + (b : Rat)))
  | .add, .vFloat a, .vFloat b => .ok (.vFloat (a + b))
  | .add, .vStr a, .vStr b => .ok (.vStr (a ++ b))
  | .add, _, _ => .error .typeErr
  | .sub, .vInt a, .vInt b => .ok (.vInt (a - b))
  | .sub, .vInt a, .vFloat b => .ok (.vFloat ((a : Rat) - b))
  | .sub, .vFloat a, .vInt b => .ok (.vFloat (a - (b : Rat)))
  | .sub, .vFloat a, .vFloat b => .ok (.vFloat (a - b))
  | .sub, _, _ => .error .typeErr
  | .mul, .vInt a, .vInt b => .ok (.vInt (a * b))
  | .mul, .vInt a, .vFloat b => .ok (.vFloat ((a : Rat) * b))
  | .mul, .vFloat a, .vInt b => .ok (.vFloat (a * (b : Rat)))
  | .mul, .vFloat a, .vFloat b => .ok (.vFloat (a * b))
  | .mul, .vStr s, .vInt n => .ok (.vStr (pyStrRepeat s n))
  | .mul, .vInt n, .vStr s => .ok (.vStr (pyStrRepeat s n))
  | .mul, _, _ => .error .typeErr
  | .div, .vInt a, .vInt b =>
      if b = 0 then .error .zeroDiv else .ok (.vFloat ((a : Rat) / (b : Rat)))
  | .div, .vInt a, .vFloat b =>
      if b = 0 then .error .zeroDiv else .ok (.vFloat ((a : Rat) / b))
  | .div, .vFloat a, .vInt b =>
      if b = 0 then .error .zeroDiv else .ok (.vFloat (a / (b : Rat)))
  | .div, .vFloat a, .vFloat b =>
      if b = 0 then .error .zeroDiv else .ok (.vFloat (a / b))
  | .div, _, _ => .error .typeErr

/-- The inner `_eval` of `evaluate_expression`: left operand first, then
right, then the operator table; identifiers resolve against the variable
mapping. -/
def evalAst (vars : List (String × Value)) : Expr → Except EvalErr Value
  | .numE (.intL n) => .ok (.vInt n)
  | .numE (.floatL q) => .ok (.vFloat q)
  | .strE s => .ok (.vStr s)
  | .nameE id =>
      match lookupVar vars id with
      | some v => .ok v
      | none => .error (.undefinedVar id)
  | .binopE op l r => do
      let lv ← evalAst vars l
      let rv ← evalAst vars r
      applyBinOp op lv rv

/-- The body of the `try` in `evaluate_expression`: parse, then `_eval`. -/
def pyAstEval (vars : List (String × Value)) (expr : String) : Except EvalErr Value :=
  match parseExprString expr with
  | none => .error .parseFail
  | some e => evalAst vars e

/-- `SimpliMath.evaluate_expression`.  Reads `self.variables` and never
writes any field, so the returned state is the argument state; every
failure of the inner parse/eval is re-raised by the `except` handler as the
single wrapped `SyntaxError`. -/
def evaluate_expression (s : SMState) (expr : String) : SMRes Value × SMState :=
  match pyAstEval s.vars expr with
  | .ok v => (.ok v, s)
  | .error _ => (.err (.syntaxError ("Invalid arithmetic or string expression: " ++ expr)), s)

/-! ### Commands -/

/-- `SimpliMath.handle_loop`: extracts `command[9:-1]`, trims it, and sets
`hold` to whether that string names a variable bound to the string `"true"`. -/
def handle_loop (s : SMState) (command : String) : SMState :=
  let condition := pyStrip (pySubstr command 9 (command.length - 1))
  if lookupVar s.vars condition = some (.vStr "true") then
    { s with hold := true }
  else
    { s with hold := false }

/-- `SimpliMath.finish_loop`. -/
def finish_loop (s : SMState) : SMState := { s with hold := false }

/-- `SimpliMath.not_hold`. -/
def not_hold (s : SMState) : SMState := { s with hold := !s.hold }

/-- `SimpliMath.end`: sets `code_running` to false and prints the banner. -/
def end_command (s : SMState) : SMState × List Event :=
  ({ s with code_running := false }, [.print "---Execution of function is below---"])

/-- `SimpliMath.queue_input`: parses an input line and appends the
`(variable-or-None, prompt)` pair to the input queue. -/
def queue_input (s : SMState) (command : String) : SMRes Unit × SMState × List Event :=
  match pySplitFirst command '=' with
  | some (l, r) =>
      let var_name := pyStrip l
      let input_call := pyStrip r
      if !pyIsIdentifier var_name then
        (.err (.syntaxError ("Invalid variable name: " ++ var_name)), s, [])
      else if pyStartsWith input_call "input(\"" && pyEndsWith input_call "\")" then
        let prompt := pyStrip (pySubstr input_call 7 (input_call.length - 2))
        (.ok (), { s with inputs := s.inputs ++ [(some var_name, prompt)] }, [])
      else
        (.err (.syntaxError ("Invalid input command: " ++ command)), s, [])
  | none =>
      if pyStartsWith command "input(\"" && pyEndsWith command "\")" then
        let prompt := pyStrip (pySubstr command 7 (command.length - 2))
        (.ok (), { s with inputs := s.inputs ++ [(none, prompt)] }, [])
      else
        (.err (.syntaxError ("Invalid input syntax: " ++ command)), s, [])

/-- `SimpliMath.assign_variable`: RuntimeError if the program has ended
(checked first), then split on the first `=`, validate the identifier,
evaluate the right-hand side, wrapping any evaluation failure. -/
def assign_variable (s : SMState) (command : String) : SMRes Unit × SMState × List Event :=
  if !s.code_running then
    (.err (.runtimeError "Code has already ended. Use 'end' to restart."), s, [])
  else
    match pySplitFirst command '=' with
    | none =>
        (.err (.valueError "not enough values to unpack (expected 2, got 1)"), s, [])
    | some (l, r) =>
        let var_name := pyStrip l
        let value := pyStrip r
        if !pyIsIdentifier var_name then
          (.err (.syntaxError ("Invalid variable name: " ++ var_name)), s, [])
        else
          match evaluate_expression s value with
          | (.ok v, s1) => (.ok (), { s1 with vars := setVar s1.vars var_name v }, [])
          | (.err _, s1) =>
              (.err (.syntaxError ("Invalid value or expression: " ++ value)), s1, [])
          | (.divergent, s1) => (.divergent, s1, [])

/-! ### Template substitution (`format_string`) -/

inductive FmtStep where
  | done (t : String)
  | next (t : String)
  | fail (e : SMErr)
deriving DecidableEq

/-- One iteration of the `while` loop in `format_string`: find the first
`/\x7b` and the first `\x7d/`, extract and trim the text between them, look it
up, and replace the first occurrence of the re-assembled (trimmed)
placeholder. -/
def format_step (vars : List (String × Value)) (template : String) : FmtStep :=
  if strContains template "/\x7b" && strContains template "\x7d/" then
    match idxOfSub ("/\x7b".toList) template.toList,
          idxOfSub ("\x7d/".toList) template.toList with
    | some i, some j =>
        let start := i + 2
        let var_name := pyStrip (pySubstr template start j)
        match lookupVar vars var_name with
        | some v =>
            .next (replaceFirstStr template ("/\x7b" ++ var_name ++ "\x7d/") (strOfValue v))
        | none => .fail (.syntaxError ("Undefined variable in string: " ++ var_name))
    | _, _ => .done template
  else
    .done template

def format_string_fuel : Nat → List (String × Value) → String → SMRes String
  | 0, _, _ => .divergent
  | n + 1, vars, template =>
      match format_step vars template with
      | .done t => .ok t
      | .fail e => .err e
      | .next t => format_string_fuel n vars t

/-- `SimpliMath.format_string`. Reads `self.variables` and never writes any
field, so the returned state is the argument state; the loop is run on
explicit fuel because it does not terminate on all inputs. -/
def format_string (fuel : Nat) (s : SMState) (template : String) : SMRes String × SMState :=
  (format_string_fuel fuel s.vars template, s)

/-- Whether the `format_string` loop terminates (either normally or by
raising) on the given store and template for some amount of fuel. -/
def FormatTerminates (vars : List (String × Value)) (template : String) : Prop :=
  ∃ n, format_string_fuel n vars template ≠ .divergent

/-! ### Parse dispatch, input resolution, output execution -/

/-- `SimpliMath.parse_command`: the dispatch chain, in source order. -/
def parse_command (s : SMState) (command : String) : SMRes Unit × SMState × List Event :=
  if pyIsEmpty command || pyStartsWith command "***" then
    (.ok (), s, [])
  else if strContains command "=" && strContains command "input(" && pyEndsWith command ")" then
    queue_input s command
  else if pyStartsWith command "output(" && pyEndsWith command ")" then
    (.ok (), { s with outputs := s.outputs ++ [command] }, [])
  else if pyStartsWith command "wait(" && pyEndsWith command ")" then
    (.ok (), { s with outputs := s.outputs ++ [command] }, [])
  else if pyStartsWith command "loop if(" && pyEndsWith command ")" then
    (.ok (), handle_loop s command, [])
  else if command = "finish loop" then
    (.ok (), finish_loop s, [])
  else if pyStartsWith command "not hold" then
    (.ok (), not_hold s, [])
  else if command = "end" then
    let (s1, evs) := end_command s
    (.ok (), s1, evs)
  else if strContains command "=" then
    assign_variable s command
  else
    (.err (.syntaxError ("Unknown command: " ++ command)), s, [])

/-- The `for line in lines` loop of `SimpliMath.execute`: stops before the
next line once `code_running` is false; a raised exception aborts the loop. -/
def parse_lines (s : SMState) : List String → SMRes Unit × SMState × List Event
  | [] => (.ok (), s, [])
  | line :: rest =>
      if !s.code_running then (.ok (), s, [])
      else
        match parse_command s (pyStrip line) with
        | (.ok _, s1, evs) =>
            match parse_lines s1 rest with
            | (r, s2, evs') => (r, s2, evs ++ evs')
        | (.err e, s1, evs) => (.err e, s1, evs)
        | (.divergent, s1, evs) => (.divergent, s1, evs)

/-- The loop body of `SimpliMath.resolve_inputs` over an explicit queue:
print the prompt, read a line (EOFError when stdin is exhausted), parse as
int else keep the string, and store when a variable name was bound. -/
def resolve_loop (s : SMState) :
    List (Option String × String) → List String →
    SMRes Unit × SMState × List String × List Event
  | [], stdin => (.ok (), s, stdin, [])
  | (_, prompt) :: _, [] =>
      (.err (.eofError "EOF when reading a line"), s, [], [.print prompt])
  | (var_name, prompt) :: rest, line :: stdin =>
      let value : Value :=
        match pyParseInt line with
        | some n => .vInt n
        | none => .vStr line
      let s1 :=
        match var_name with
        | some n => { s with vars := setVar s.vars n value }
        | none => s
      match resolve_loop s1 rest stdin with
      | (r, s2, stdin', evs) => (r, s2, stdin', .print prompt :: .read line :: evs)

/-- `SimpliMath.resolve_inputs`. -/
def resolve_inputs (s : SMState) (stdin : List String) :
    SMRes Unit × SMState × List String × List Event :=
  resolve_loop s s.inputs stdin

/-- `SimpliMath.handle_wait`: evaluate the duration, require a numeric
value, print the waiting message, sleep; every exception inside is
re-raised as `SyntaxError "Error in wait command: <inner message>"`. -/
def handle_wait (s : SMState) (value : String) : SMRes Unit × SMState × List Event :=
  match evaluate_expression s value with
  | (.ok v, s1) =>
      match v with
      | .vStr _ =>
          (.err (.syntaxError ("Error in wait command: Invalid duration for wait: " ++ value)),
           s1, [])
      | .vInt n =>
          if n < 0 then
            (.err (.syntaxError "Error in wait command: sleep length must be non-negative"),
             s1, [.print ("Waiting for " ++ strOfValue (.vInt n) ++ " seconds...")])
          else
            (.ok (), s1,
             [.print ("Waiting for " ++ strOfValue (.vInt n) ++ " seconds..."), .sleep (n : Rat)])
      | .vFloat q =>
          if q < 0 then
            (.err (.syntaxError "Error in wait command: sleep length must be non-negative"),
             s1, [.print ("Waiting for " ++ strOfValue (.vFloat q) ++ " seconds...")])
          else
            (.ok (), s1,
             [.print ("Waiting for " ++ strOfValue (.vFloat q) ++ " seconds..."), .sleep q])
  | (.err e, s1) =>
      match e with
      | .syntaxError m => (.err (.syntaxError ("Error in wait command: " ++ m)), s1, [])
      | .runtimeError m => (.err (.syntaxError ("Error in wait command: " ++ m)), s1, [])
      | .eofError m => (.err (.syntaxError ("Error in wait command: " ++ m)), s1, [])
      | .valueError m => (.err (.syntaxError ("Error in wait command: " ++ m)), s1, [])
  | (.divergent, s1) => (.divergent, s1, [])

/-- The loop body of `SimpliMath.handle_outputs` over the output queue. -/
def outputs_loop (fuel : Nat) (s : SMState) : List String → SMRes Unit × SMState × List Event
  | [] => (.ok (), s, [])
  | command :: rest =>
      if pyStartsWith command "output(" && pyEndsWith command ")" then
        let value := pyStrip (pySubstr command 7 (command.length - 1))
        match format_string fuel s value with
        | (.ok formatted, s1) =>
            match outputs_loop fuel s1 rest with
            | (r, s2, evs) => (r, s2, .print formatted :: evs)
        | (.err e, s1) => (.err e, s1, [])
        | (.divergent, s1) => (.divergent, s1, [])
      else if pyStartsWith command "wait(" && pyEndsWith command ")" then
        let value := pyStrip (pySubstr command 5 (command.length - 1))
        match handle_wait s value with
        | (.ok _, s1, evs) =>
            match outputs_loop fuel s1 rest with
            | (r, s2, evs') => (r, s2, evs ++ evs')
        | (.err e, s1, evs) => (.err e, s1, evs)
        | (.divergent, s1, evs) => (.divergent, s1, evs)
      else
        (.err (.syntaxError ("Unknown or unsupported command during execution: " ++ command)),
         s, [])

/-- `SimpliMath.handle_outputs`: prints the execution banner, then drains
the output queue in FIFO order. -/
def handle_outputs (fuel : Nat) (s : SMState) : SMRes Unit × SMState × List Event :=
  match outputs_loop fuel s s.outputs with
  | (r, s1, evs) => (r, s1, .print "---Execution of code is below---" :: evs)

/-- `SimpliMath.execute`: strip and split the program text, run the parse
pass (stopping once `code_running` is false), then resolve all inputs, then
execute all queued outputs. -/
def execute (fuel : Nat) (s : SMState) (code : String) (stdin : List String) :
    SMRes Unit × SMState × List Event :=
  let lines := pySplitNL (pyStrip code)
  match parse_lines s lines with
  | (.ok _, s1, ev1) =>
      match resolve_inputs s1 stdin with
      | (.ok _, s2, _, ev2) =>
          match handle_outputs fuel s2 with
          | (r, s3, ev3) => (r, s3, ev1 ++ ev2 ++ ev3)
      | (.err e, s2, _, ev2) => (.err e, s2, ev1 ++ ev2)
      | (.divergent, s2, _, ev2) => (.divergent, s2, ev1 ++ ev2)
  | (.err e, s1, ev1) => (.err e, s1, ev1)
  | (.divergent, s1, ev1) => (.divergent, s1, ev1)

/-- The prompt/read event pairs of FIFO input resolution: the queued
requests in queue order, each consuming the next stdin line. -/
def inputTrace : List (Option String × String) → List String → List Event
  | [], _ => []
  | _ :: _, [] => []
  | (_, prompt) :: rest, line :: stdin =>
      .print prompt :: .read line :: inputTrace rest stdin

/-- A well-formed template as `format_string` intends it: delimiter-free
segments interleaved with `/\x7b<name>\x7d/` placeholders, ending in a
trailing segment. -/
def buildTemplate : List (String × String) → String → String
  | [], tail => tail
  | (seg, x) :: rest, tail =>
      seg ++ "/\x7b" ++ x ++ "\x7d/" ++ buildTemplate rest tail

/-- The fully substituted form of such a template against a store: each
placeholder replaced by the string form of its variable's current value. -/
def substTemplate (vars : List (String × Value)) :
    List (String × String) → String → String
  | [], tail => tail
  | (seg, x) :: rest, tail =>
      seg ++ (match lookupVar vars x with
              | some v => strOfValue v
              | none => "") ++ substTemplate vars rest tail

/-! ### Helper lemmas -/

theorem evaluate_expression_snd (s : SMState) (e : String) :
    (evaluate_expression s e).2 = s := by
  unfold evaluate_expression
  cases pyAstEval s.vars e <;> rfl

theorem prefixList_head {c : Char} {p l : List Char}
    (h : isPrefixList (c :: p) l = true) :
    ∃ t, l = c :: t ∧ isPrefixList p t = true := by
  cases l with
  | nil => simp [isPrefixList] at h
  | cons b t =>
      simp [isPrefixList] at h
      exact ⟨t, by rw [h.1], h.2⟩

theorem isPrefixList_append_self (p rest : List Char) :
    isPrefixList p (p ++ rest) = true := by
  induction p with
  | nil => rfl
  | cons c cs ih => simp [isPrefixList, ih]

/-! ### Claim theorems -/

/-- Claim C9: `evaluate_expression` and `format_string` never mutate the
interpreter state: the state returned alongside the result (value, error or
divergence) is exactly the argument state. -/
theorem c9_evaluator_and_formatter_pure (fuel : Nat) (s : SMState) (expr template : String) :
    (evaluate_expression s expr).2 = s ∧ (format_string fuel s template).2 = s :=
  ⟨evaluate_expression_snd s expr, rfl⟩

/-- Claim C2 (code bug): the trimmed bare line `input("Enter name:")`
contains no `=`, so `parse_command` never reaches the variable-free branch
of `queue_input` and instead raises `SyntaxError "Unknown command: ..."`;
yet `queue_input` itself, called directly on that line, would accept it and
queue a promptwith no bound variable — the bare-input branch is dead code. -/
theorem c2_bare_input_rejected :
    parse_command initState "input(\"Enter name:\")" =
      (.err (.syntaxError "Unknown command: input(\"Enter name:\")"), initState, []) ∧
    queue_input initState "input(\"Enter name:\")" =
      (.ok (), { initState with inputs := [(none, "Enter name:")] }, []) := by
  decide

/-- Claim C3 counterexample: with `flag` bound to the string `"true"`, the
line `loop if(flag)` leaves `hold` false, because `command[9:-1]` drops the
first character inside the parentheses and looks up `"lag"`. -/
theorem c3_counterexample :
    lookupVar [("flag", Value.vStr "true")] "flag" = some (.vStr "true") ∧
    (parse_command { initState with vars := [("flag", Value.vStr "true")] }
        "loop if(flag)").2.1.hold = false := by
  decide

/-- Claim C3 (amended): parsing a `loop if(...)` line (that does not also
match the input-command test) never raises and only updates `hold`, and
`hold` becomes true iff the trimmed substring `command[9:-1]` — the text
between the parentheses with its first character removed — names a variable
currently bound to the string `"true"`. -/
theorem c3_loop_if_offset (s : SMState) (cmd : String)
    (h1 : pyStartsWith cmd "loop if(" = true)
    (h2 : pyEndsWith cmd ")" = true)
    (h3 : ¬(strContains cmd "=" = true ∧ strContains cmd "input(" = true)) :
    parse_command s cmd = (.ok (), handle_loop s cmd, []) ∧
    ((handle_loop s cmd).hold = true ↔
      lookupVar s.vars (pyStrip (pySubstr cmd 9 (cmd.length - 1))) = some (.vStr "true")) ∧
    (handle_loop s cmd).vars = s.vars ∧
    (handle_loop s cmd).outputs = s.outputs ∧
    (handle_loop s cmd).inputs = s.inputs ∧
    (handle_loop s cmd).code_running = s.code_running := by
  have h1' : isPrefixList ['l', 'o', 'o', 'p', ' ', 'i', 'f', '('] cmd.toList = true := h1
  obtain ⟨t, ht, _⟩ := prefixList_head h1'
  have hne : pyIsEmpty cmd = false := by
    unfold pyIsEmpty; rw [ht]; rfl
  have hcm : pyStartsWith cmd "***" = false := by
    show isPrefixList "***".toList cmd.toList = false
    rw [ht]; rfl
  have hout : pyStartsWith cmd "output(" = false := by
    show isPrefixList "output(".toList cmd.toList = false
    rw [ht]; rfl
  have hwait : pyStartsWith cmd "wait(" = false := by
    show isPrefixList "wait(".toList cmd.toList = false
    rw [ht]; rfl
  have hc2 : (strContains cmd "=" && strContains cmd "input(") = false := by
    cases hA : strContains cmd "=" <;> cases hB : strContains cmd "input(" <;> simp_all
  refine ⟨?_, ?_⟩
  · simp [parse_command, hne, hcm, hout, hwait, h1, h2, hc2]
  · unfold handle_loop
    by_cases hlv : lookupVar s.vars (pyStrip (pySubstr cmd 9 (cmd.length - 1))) =
        some (.vStr "true") <;> simp [hlv]

/-- Claim C3 witness: a concrete spaced line on which the amended reading
applies (the dropped character is the space, so the full identifier is
looked up and `hold` becomes true). -/
theorem c3_witness :
    pyStartsWith "loop if( flag)" "loop if(" = true ∧
    pyEndsWith "loop if( flag)" ")" = true ∧
    ¬(strContains "loop if( flag)" "=" = true ∧
      strContains "loop if( flag)" "input(" = true) ∧
    ((handle_loop { initState with vars := [("flag", Value.vStr "true")] }
        "loop if( flag)").hold = true ↔
      lookupVar [("flag", Value.vStr "true")]
        (pyStrip (pySubstr "loop if( flag)" 9 ("loop if( flag)".length - 1))) =
        some (.vStr "true")) :=
  ⟨by decide, by decide, by decide,
    (c3_loop_if_offset _ _ (by decide) (by decide) (by decide)).2.1⟩

/-- Claim C6 counterexample: the program `end` followed by an assignment
line executes without any error — the assignment line after `end` is never
parsed, so no RuntimeError is raised. -/
theorem c6_counterexample :
    execute 4 initState "end\nx = 1" [] =
      (.ok (), { initState with code_running := false },
        [.print "---Execution of function is below---",
         .print "---Execution of code is below---"]) := by
  decide

/-- Claim C6 (amended): `assign_variable` invoked while `code_running` is
false fails with the RuntimeError before any identifier validation or
right-hand-side evaluation (the command may be arbitrarily malformed), but
a program whose source merely contains an assignment line after `end` does
not fail: the line is silently skipped by the parse loop. -/
theorem c6_runtime_error_precheck :
    (∀ (s : SMState) (cmd : String), s.code_running = false →
      assign_variable s cmd =
        (.err (.runtimeError "Code has already ended. Use 'end' to restart."), s, [])) ∧
    (execute 4 initState "end\nx = 1" []).1 = .ok () := by
  constructor
  · intro s cmd h
    simp [assign_variable, h]
  · decide

/-- Claim C6 witness: the RuntimeError branch applied to a stopped state
and a command with an invalid identifier and malformed right-hand side. -/
theorem c6_witness :
    ({ initState with code_running := false } : SMState).code_running = false ∧
    assign_variable { initState with code_running := false } "1x = +" =
      (.err (.runtimeError "Code has already ended. Use 'end' to restart."),
        { initState with code_running := false }, []) :=
  ⟨rfl, c6_runtime_error_precheck.1 _ _ rfl⟩

/-- Claim C10: when the right-hand side of an assignment fails to evaluate
(for any reason), `assign_variable` reports `SyntaxError "Invalid value or
expression: <rhs>"` instead of the inner error, and the state — in
particular the variable store — is returned unchanged. -/
theorem c10_assignment_wraps_eval_failure (s : SMState) (cmd l r : String) (e : SMErr)
    (hrun : s.code_running = true)
    (hsplit : pySplitFirst cmd '=' = some (l, r))
    (hid : pyIsIdentifier (pyStrip l) = true)
    (heval : (evaluate_expression s (pyStrip r)).1 = .err e) :
    assign_variable s cmd =
      (.err (.syntaxError ("Invalid value or expression: " ++ pyStrip r)), s, []) := by
  have hpair : evaluate_expression s (pyStrip r) = (.err e, s) := by
    have h2 := evaluate_expression_snd s (pyStrip r)
    cases hq : evaluate_expression s (pyStrip r) with
    | mk a b =>
        rw [hq] at heval h2
        simp at heval h2
        rw [heval, h2]
  simp [assign_variable, hrun, hsplit, hid, hpair]

/-- Claim C10 witness: assigning the unparsable right-hand side `)` to `x`
reports the wrapped message and leaves the (empty) store untouched. -/
theorem c10_witness :
    initState.code_running = true ∧
    pySplitFirst "x = )" '=' = some ("x ", " )") ∧
    pyIsIdentifier (pyStrip "x ") = true ∧
    (evaluate_expression initState (pyStrip " )")).1 =
      .err (.syntaxError "Invalid arithmetic or string expression: )") ∧
    assign_variable initState "x = )" =
      (.err (.syntaxError ("Invalid value or expression: " ++ pyStrip " )")), initState, []) :=
  ⟨rfl, by decide, by decide, by decide,
    c10_assignment_wraps_eval_failure initState "x = )" "x " " )"
      (.syntaxError "Invalid arithmetic or string expression: )") rfl (by decide)
      (by decide) (by decide)⟩

/-- Claim C7: `end` sets `code_running` to false (printing only the
termination banner), and once the state reached after some prefix of the
line list has `code_running` false, appending further source lines changes
nothing: they are never parsed and no error is raised for them. -/
theorem c7_end_truncates_silently :
    (∀ s : SMState, parse_command s "end" =
      (.ok (), { s with code_running := false },
        [.print "---Execution of function is below---"])) ∧
    (∀ (s : SMState) (lines extra : List String),
      (parse_lines s lines).1 = .ok () →
      (parse_lines s lines).2.1.code_running = false →
      parse_lines s (lines ++ extra) = parse_lines s lines) := by
  constructor
  · intro s; rfl
  · intro s lines
    induction lines generalizing s with
    | nil =>
        intro extra h1 h2
        simp only [parse_lines] at h2
        cases extra with
        | nil => rfl
        | cons l ls => simp [parse_lines, h2]
    | cons line ls ih =>
        intro extra h1 h2
        by_cases hr : s.code_running
        · rcases hp : parse_command s (pyStrip line) with ⟨r, s1, evs⟩
          cases r with
          | ok a =>
              have h1' : (parse_lines s1 ls).1 = .ok () := by
                simp only [parse_lines, hr, hp] at h1
                simpa using h1
              have h2' : (parse_lines s1 ls).2.1.code_running = false := by
                simp only [parse_lines, hr, hp] at h2
                simpa using h2
              simp only [List.cons_append, parse_lines, hr, hp, List.append_eq]
              rw [ih s1 extra h1' h2']
          | err e =>
              simp only [parse_lines, hr, hp] at h1
              simp at h1
          | divergent =>
              simp only [parse_lines, hr, hp] at h1
              simp at h1
        · have hr' : s.code_running = false := by simpa using hr
          simp [parse_lines, hr']

/-- Claim C7 witness: parsing `end` stops before a following assignment
line, and appending that line changes nothing. -/
theorem c7_witness :
    (parse_lines initState ["end"]).1 = SMRes.ok () ∧
    (parse_lines initState ["end"]).2.1.code_running = false ∧
    parse_lines initState (["end"] ++ ["x = 1"]) = parse_lines initState ["end"] :=
  ⟨by decide, by decide,
    c7_end_truncates_silently.2 initState ["end"] ["x = 1"] (by decide) (by decide)⟩

/-- Claim C8 counterexample: the line `output("a=input(b)")` starts with
`output(` and ends with `)`, yet the dispatch precedence routes it to the
input-command test (it contains both `=` and `input(`), which raises
`SyntaxError "Invalid variable name: ..."` — nothing is appended to the
output queue. -/
theorem c8_counterexample :
    pyStartsWith "output(\"a=input(b)\")" "output(" = true ∧
    pyEndsWith "output(\"a=input(b)\")" ")" = true ∧
    parse_command initState "output(\"a=input(b)\")" =
      (.err (.syntaxError "Invalid variable name: output(\"a"), initState, []) := by
  decide

/-- Claim C8 (amended): a line starting with `output(` or `wait(` and
ending with `)` that does not also contain both `=` and `input(` is only
appended verbatim to the output queue: the variable store, the input queue
and both flags are unchanged, no event is emitted and no evaluation,
substitution or printing happens at parse time. -/
theorem c8_output_wait_enqueue_only (s : SMState) (cmd : String)
    (h1 : pyStartsWith cmd "output(" = true ∨ pyStartsWith cmd "wait(" = true)
    (h2 : pyEndsWith cmd ")" = true)
    (h3 : ¬(strContains cmd "=" = true ∧ strContains cmd "input(" = true)) :
    parse_command s cmd = (.ok (), { s with outputs := s.outputs ++ [cmd] }, []) := by
  have hc2 : (strContains cmd "=" && strContains cmd "input(") = false := by
    cases hA : strContains cmd "=" <;> cases hB : strContains cmd "input(" <;> simp_all
  rcases h1 with h1 | h1
  · have h1' : isPrefixList ['o', 'u', 't', 'p', 'u', 't', '('] cmd.toList = true := h1
    obtain ⟨t, ht, _⟩ := prefixList_head h1'
    have hne : pyIsEmpty cmd = false := by
      unfold pyIsEmpty; rw [ht]; rfl
    have hcm : pyStartsWith cmd "***" = false := by
      show isPrefixList "***".toList cmd.toList = false
      rw [ht]; rfl
    simp [parse_command, hne, hcm, h1, h2, hc2]
  · have h1' : isPrefixList ['w', 'a', 'i', 't', '('] cmd.toList = true := h1
    obtain ⟨t, ht, _⟩ := prefixList_head h1'
    have hne : pyIsEmpty cmd = false := by
      unfold pyIsEmpty; rw [ht]; rfl
    have hcm : pyStartsWith cmd "***" = false := by
      show isPrefixList "***".toList cmd.toList = false
      rw [ht]; rfl
    have hout : pyStartsWith cmd "output(" = false := by
      show isPrefixList "output(".toList cmd.toList = false
      rw [ht]; rfl
    simp [parse_command, hne, hcm, hout, h1, h2, hc2]

/-- Claim C8 witness: a plain `output(...)` line is enqueued verbatim with
all other state components untouched. -/
theorem c8_witness :
    (pyStartsWith "output(2 + 3)" "output(" = true ∨
      pyStartsWith "output(2 + 3)" "wait(" = true) ∧
    pyEndsWith "output(2 + 3)" ")" = true ∧
    ¬(strContains "output(2 + 3)" "=" = true ∧
      strContains "output(2 + 3)" "input(" = true) ∧
    parse_command initState "output(2 + 3)" =
      (.ok (), { initState with outputs := ["output(2 + 3)"] }, []) :=
  ⟨Or.inl (by decide), by decide, by decide,
    c8_output_wait_enqueue_only initState "output(2 + 3)" (Or.inl (by decide))
      (by decide) (by decide)⟩

theorem identStart_not_space {c : Char} (h : isIdentStart c = true) :
    isPySpace c = false := by
  cases hx : isPySpace c
  · rfl
  · exfalso
    simp only [isPySpace, Bool.or_eq_true, decide_eq_true_eq] at hx
    rcases hx with (((((h1 | h1) | h1) | h1) | h1) | h1) <;> subst h1 <;>
      exact absurd h (by decide)

theorem identStart_identChar {c : Char} (h : isIdentStart c = true) :
    isIdentChar c = true := by
  simp [isIdentStart] at h
  simp [isIdentChar, Char.isAlphanum]
  rcases h with h | h <;> tauto

theorem takeWhile_all {p : Char → Bool} {l : List Char} (h : l.all p = true) :
    l.takeWhile p = l :=
  List.takeWhile_eq_self_iff.mpr (by simpa [List.all_eq_true] using h)

theorem dropWhile_all {p : Char → Bool} {l : List Char} (h : l.all p = true) :
    l.dropWhile p = [] :=
  List.dropWhile_eq_nil_iff.mpr (by simpa [List.all_eq_true] using h)

theorem tokenize_ident (c : Char) (cs : List Char)
    (h1 : isIdentStart c = true) (h2 : cs.all isIdentChar = true) :
    tokenize (c :: cs) = some [Tok.tid (c :: cs)] := by
  have hsp : isPySpace c = false := identStart_not_space h1
  have hic : isIdentChar c = true := identStart_identChar h1
  have hall : (c :: cs).all isIdentChar = true := by simp [hic, h2]
  have htw : (c :: cs).takeWhile isIdentChar = c :: cs := takeWhile_all hall
  have hdw : (c :: cs).dropWhile isIdentChar = [] := dropWhile_all hall
  show tokenizeAux ((c :: cs).length + 1) (c :: cs) = some [Tok.tid (c :: cs)]
  rw [show (c :: cs).length + 1 = cs.length + 1 + 1 from by simp]
  simp only [tokenizeAux, hsp, h1, htw, hdw]
  rfl

theorem parse_ident (name : String) (hid : pyIsIdentifier name = true) :
    parseExprString name =
      if name ∈ pyKeywords then none else some (.nameE name) := by
  have hex : ∃ c cs, name.toList = c :: cs ∧ isIdentStart c = true ∧
      cs.all isIdentChar = true := by
    unfold pyIsIdentifier at hid
    cases hl : name.toList with
    | nil => rw [hl] at hid; simp at hid
    | cons c cs =>
        rw [hl] at hid
        simp at hid
        exact ⟨c, cs, rfl, hid.1, by simpa [List.all_eq_true] using hid.2⟩
  obtain ⟨c, cs, hl, h1, h2⟩ := hex
  have htok : tokenize name.toList = some [Tok.tid (c :: cs)] := by
    rw [hl]; exact tokenize_ident c cs h1 h2
  have hmk : String.mk (c :: cs) = name := by rw [← hl]; rfl
  have hred : parseExprString name =
      (match pExprF 6 [Tok.tid (c :: cs)] with
       | some (e, []) => some e
       | _ => none) := by
    unfold parseExprString
    rw [htok]
    rfl
  by_cases hk : name ∈ pyKeywords
  · have hmk' : String.mk (c :: cs) ∈ pyKeywords := by rw [hmk]; exact hk
    have hprim : pPrimF 4 [Tok.tid (c :: cs)] = none := by
      show (if String.mk (c :: cs) ∈ pyKeywords then none
            else some (Expr.nameE (String.mk (c :: cs)), ([] : List Tok))) = none
      rw [if_pos hmk']
    have hterm : pTermF 5 [Tok.tid (c :: cs)] = none := by
      show (match pPrimF 4 [Tok.tid (c :: cs)] with
            | none => none
            | some (e, ts') => pTermRest 4 e ts') = none
      rw [hprim]
    have hexp : pExprF 6 [Tok.tid (c :: cs)] = none := by
      show (match pTermF 5 [Tok.tid (c :: cs)] with
            | none => none
            | some (e, ts') => pExprRest 5 e ts') = none
      rw [hterm]
    rw [hred, hexp, if_pos hk]
  · have hmk' : String.mk (c :: cs) ∉ pyKeywords := by rw [hmk]; exact hk
    have hprim : pPrimF 4 [Tok.tid (c :: cs)] =
        some (.nameE (String.mk (c :: cs)), []) := by
      show (if String.mk (c :: cs) ∈ pyKeywords then none
            else some (Expr.nameE (String.mk (c :: cs)), ([] : List Tok))) = _
      rw [if_neg hmk']
    have hterm : pTermF 5 [Tok.tid (c :: cs)] =
        some (.nameE (String.mk (c :: cs)), []) := by
      show (match pPrimF 4 [Tok.tid (c :: cs)] with
            | none => none
            | some (e, ts') => pTermRest 4 e ts') = _
      rw [hprim]
      rfl
    have hexp : pExprF 6 [Tok.tid (c :: cs)] =
        some (.nameE (String.mk (c :: cs)), []) := by
      show (match pTermF 5 [Tok.tid (c :: cs)] with
            | none => none
            | some (e, ts') => pExprRest 5 e ts') = _
      rw [hterm]
      rfl
    rw [hred, hexp, if_neg hk, hmk]

/-- Claim C5 counterexample: evaluating the bare undefined identifier `x`
does not produce the message `Undefined variable: x`; the inner error is
swallowed by the wrapping handler. -/
theorem c5_counterexample :
    (evaluate_expression initState "x").1 =
      .err (.syntaxError "Invalid arithmetic or string expression: x") ∧
    (evaluate_expression initState "x").1 ≠
      .err (.syntaxError "Undefined variable: x") := by
  decide

/-- Claim C5 (amended): for every expression that is a bare identifier not
bound in the store, `evaluate_expression` fails with a SyntaxError, but its
message is the wrapper `Invalid arithmetic or string expression: <name>`:
the inner `Undefined variable: <name>` error is caught by the surrounding
handler and replaced. -/
theorem c5_undefined_identifier_wrapped (s : SMState) (name : String)
    (hid : pyIsIdentifier name = true)
    (habs : lookupVar s.vars name = none) :
    (evaluate_expression s name).1 =
      .err (.syntaxError ("Invalid arithmetic or string expression: " ++ name)) := by
  have hpe := parse_ident name hid
  unfold evaluate_expression pyAstEval
  by_cases hk : name ∈ pyKeywords
  · rw [if_pos hk] at hpe
    rw [hpe]
  · rw [if_neg hk] at hpe
    rw [hpe]
    show (match (match lookupVar s.vars name with
                 | some v => Except.ok v
                 | none => Except.error (EvalErr.undefinedVar name)) with
          | Except.ok v => ((SMRes.ok v : SMRes Value), s)
          | Except.error _ =>
              (SMRes.err (.syntaxError ("Invalid arithmetic or string expression: " ++ name)), s)).1 = _
    rw [habs]

/-- Claim C5 witness: the undefined identifier `missing` evaluated against
an unrelated store yields the wrapped message. -/
theorem c5_witness :
    pyIsIdentifier "missing" = true ∧
    lookupVar [("x", Value.vInt 1)] "missing" = none ∧
    (evaluate_expression { initState with vars := [("x", Value.vInt 1)] } "missing").1 =
      .err (.syntaxError ("Invalid arithmetic or string expression: " ++ "missing")) :=
  ⟨by decide, by decide,
    c5_undefined_identifier_wrapped { initState with vars := [("x", Value.vInt 1)] }
      "missing" (by decide) (by decide)⟩

theorem toList_append (s t : String) : (s ++ t).toList = s.toList ++ t.toList := rfl

theorem string_eq_of_toList {s t : String} (h : s.toList = t.toList) : s = t := by
  cases s with
  | mk d =>
      cases t with
      | mk d' => exact congrArg String.mk h

theorem idxOfSub_append_notin (p0 : Char) (p : List Char) (l rest : List Char)
    (h : ∀ c ∈ l, c ≠ p0) :
    idxOfSub (p0 :: p) (l ++ rest) =
      (idxOfSub (p0 :: p) rest).map (fun k => k + l.length) := by
  induction l with
  | nil =>
      simp only [List.nil_append, List.length_nil]
      cases idxOfSub (p0 :: p) rest <;> simp
  | cons c cl ih =>
      have hc : ¬(p0 = c) := fun he => (h c (by simp)) he.symm
      have hpre : isPrefixList (p0 :: p) (c :: (cl ++ rest)) = false := by
        simp [isPrefixList, hc]
      rw [List.cons_append]
      simp only [idxOfSub]
      rw [hpre]
      simp only [Bool.false_eq_true, if_false]
      rw [ih (fun y hy => h y (by simp [hy]))]
      cases idxOfSub (p0 :: p) rest <;> (simp; try omega)

theorem idxOfSub_here (p : List Char) (c : Char) (rest : List Char)
    (h : isPrefixList p (c :: rest) = true) : idxOfSub p (c :: rest) = some 0 := by
  simp only [idxOfSub]
  rw [h]
  rfl

theorem idxOfSub_none_notin (p0 : Char) (p l : List Char)
    (h : ∀ c ∈ l, c ≠ p0) : idxOfSub (p0 :: p) l = none := by
  induction l with
  | nil => rfl
  | cons c cl ih =>
      have hc : ¬(p0 = c) := fun he => (h c (by simp)) he.symm
      have hpre : isPrefixList (p0 :: p) (c :: cl) = false := by
        simp [isPrefixList, hc]
      simp only [idxOfSub]
      rw [hpre]
      simp [ih (fun y hy => h y (by simp [hy]))]

theorem replaceFirst_append_notin (p0 : Char) (p r : List Char) (l rest : List Char)
    (h : ∀ c ∈ l, c ≠ p0) :
    replaceFirstList (p0 :: p) r (l ++ rest) =
      l ++ replaceFirstList (p0 :: p) r rest := by
  induction l with
  | nil => simp
  | cons c cl ih =>
      have hc : ¬(p0 = c) := fun he => (h c (by simp)) he.symm
      have hpre : isPrefixList (p0 :: p) (c :: (cl ++ rest)) = false := by
        simp [isPrefixList, hc]
      rw [List.cons_append]
      simp only [replaceFirstList]
      rw [hpre]
      simp only [Bool.false_eq_true, if_false, List.cons_append]
      rw [ih (fun y hy => h y (by simp [hy]))]

theorem replaceFirst_at_head (c : Char) (p' r rest : List Char) :
    replaceFirstList (c :: p') r ((c :: p') ++ rest) = r ++ rest := by
  have hpre : isPrefixList (c :: p') (c :: (p' ++ rest)) = true := by
    have := isPrefixList_append_self (c :: p') rest
    simpa using this
  rw [List.cons_append]
  simp only [replaceFirstList]
  rw [hpre]
  simp only [if_true, List.length_cons, List.drop_succ_cons]
  rw [List.drop_left]

theorem format_string_fuel_next {n : Nat} {vars : List (String × Value)} {t t' : String}
    (h : format_step vars t = .next t') :
    format_string_fuel (n + 1) vars t = format_string_fuel n vars t' := by
  simp only [format_string_fuel]
  rw [h]

theorem format_string_fuel_done {n : Nat} {vars : List (String × Value)} {t t' : String}
    (h : format_step vars t = .done t') :
    format_string_fuel (n + 1) vars t = .ok t' := by
  simp only [format_string_fuel]
  rw [h]

theorem format_string_fuel_fail {n : Nat} {vars : List (String × Value)} {t : String}
    {e : SMErr} (h : format_step vars t = .fail e) :
    format_string_fuel (n + 1) vars t = .err e := by
  simp only [format_string_fuel]
  rw [h]

/-- Claim C4 counterexample: the template `/\x7b x \x7d/` has a single
placeholder whose trimmed name `x` is present in the store, yet
`format_string` never terminates: it trims the name, then searches for the
trimmed form `/\x7bx\x7d/`, which does not occur, so the template never
changes and the `while` loop runs forever. -/
theorem c4_counterexample :
    lookupVar [("x", Value.vInt 1)] "x" = some (.vInt 1) ∧
    pyStrip " x " = "x" ∧
    ¬ FormatTerminates [("x", Value.vInt 1)] "/\x7b x \x7d/" := by
  refine ⟨by decide, by decide, ?_⟩
  have hstep : format_step [("x", Value.vInt 1)] "/\x7b x \x7d/" =
      .next "/\x7b x \x7d/" := by decide
  have hdiv : ∀ m, format_string_fuel m [("x", Value.vInt 1)] "/\x7b x \x7d/" =
      .divergent := by
    intro m
    induction m with
    | zero => rfl
    | succ k ih => rw [format_string_fuel_next hstep]; exact ih
  rintro ⟨n, hn⟩
  exact hn (hdiv n)

theorem format_step_placeholder (vars : List (String × Value)) (a x rest : String)
    (hA : ∀ c ∈ a.toList, c ≠ '/' ∧ c ≠ '\x7b' ∧ c ≠ '\x7d')
    (hX : ∀ c ∈ x.toList, c ≠ '/' ∧ c ≠ '\x7b' ∧ c ≠ '\x7d')
    (hT : pyStrip x = x) :
    format_step vars (a ++ "/\x7b" ++ x ++ "\x7d/" ++ rest) =
      (match lookupVar vars x with
       | some v =>
           FmtStep.next (replaceFirstStr (a ++ "/\x7b" ++ x ++ "\x7d/" ++ rest)
             ("/\x7b" ++ x ++ "\x7d/") (strOfValue v))
       | none =>
           FmtStep.fail (.syntaxError ("Undefined variable in string: " ++ x))) := by
  set T := a ++ "/\x7b" ++ x ++ "\x7d/" ++ rest with hTdef
  have hlist : T.toList =
      a.toList ++ ('/' :: '\x7b' :: (x.toList ++ ('\x7d' :: '/' :: rest.toList))) := by
    rw [hTdef]
    simp only [toList_append, List.append_assoc]
    rfl
  have e1 : idxOfSub ['/', '\x7b'] T.toList = some a.toList.length := by
    rw [hlist]
    rw [idxOfSub_append_notin '/' ['\x7b'] a.toList _ (fun c hc => (hA c hc).1)]
    rw [idxOfSub_here ['/', '\x7b'] '/' _ (by simp [isPrefixList])]
    simp
  have hmem2 : ∀ c ∈ a.toList ++ ('/' :: '\x7b' :: x.toList), c ≠ '\x7d' := by
    intro c hc
    rcases List.mem_append.mp hc with hc | hc
    · exact (hA c hc).2.2
    · simp only [List.mem_cons] at hc
      rcases hc with rfl | rfl | hc
      · decide
      · decide
      · exact (hX c hc).2.2
  have hlist2 : T.toList =
      (a.toList ++ ('/' :: '\x7b' :: x.toList)) ++ ('\x7d' :: '/' :: rest.toList) := by
    rw [hlist]
    simp [List.append_assoc]
  have e2 : idxOfSub ['\x7d', '/'] T.toList =
      some (a.toList ++ ('/' :: '\x7b' :: x.toList)).length := by
    rw [hlist2]
    rw [idxOfSub_append_notin '\x7d' ['/'] _ _ hmem2]
    rw [idxOfSub_here ['\x7d', '/'] '\x7d' _ (by simp [isPrefixList])]
    simp
  have hc1 : strContains T "/\x7b" = true := by
    unfold strContains
    rw [show ("/\x7b" : String).toList = ['/', '\x7b'] from rfl, e1]
    rfl
  have hc2 : strContains T "\x7d/" = true := by
    unfold strContains
    rw [show ("\x7d/" : String).toList = ['\x7d', '/'] from rfl, e2]
    rfl
  have hcond : (strContains T "/\x7b" && strContains T "\x7d/") = true := by
    rw [hc1, hc2]
    rfl
  have e3 : pySubstr T (a.toList.length + 2)
      (a.toList ++ ('/' :: '\x7b' :: x.toList)).length = x := by
    have hdl : (T.toList.take ((a.toList ++ ('/' :: '\x7b' :: x.toList)).length)).drop
        (a.toList.length + 2) = x.toList := by
      rw [hlist2, List.take_left]
      rw [show a.toList ++ ('/' :: '\x7b' :: x.toList) =
            (a.toList ++ ['/', '\x7b']) ++ x.toList from by simp]
      rw [show a.toList.length + 2 = (a.toList ++ ['/', '\x7b']).length from by simp]
      rw [List.drop_left]
    unfold pySubstr
    rw [hdl]
    rfl
  have e3p : pyStrip (pySubstr T (a.toList.length + 2)
      (a.toList ++ ('/' :: '\x7b' :: x.toList)).length) = x := by
    rw [e3]
    exact hT
  unfold format_step
  rw [hcond]
  rw [show ("/\x7b" : String).toList = ['/', '\x7b'] from rfl,
      show ("\x7d/" : String).toList = ['\x7d', '/'] from rfl, e1, e2]
  simp only [if_true]
  rw [e3p]

theorem replaceFirstStr_placeholder (a x rest : String) (v : Value)
    (hA : ∀ c ∈ a.toList, c ≠ '/') :
    replaceFirstStr (a ++ "/\x7b" ++ x ++ "\x7d/" ++ rest) ("/\x7b" ++ x ++ "\x7d/")
      (strOfValue v) = a ++ strOfValue v ++ rest := by
  apply string_eq_of_toList
  show replaceFirstList ("/\x7b" ++ x ++ "\x7d/").toList (strOfValue v).toList
      (a ++ "/\x7b" ++ x ++ "\x7d/" ++ rest).toList = (a ++ strOfValue v ++ rest).toList
  have hpat : ("/\x7b" ++ x ++ "\x7d/").toList =
      '/' :: '\x7b' :: (x.toList ++ ['\x7d', '/']) := by
    simp only [toList_append, List.append_assoc]
    rfl
  have hlist : (a ++ "/\x7b" ++ x ++ "\x7d/" ++ rest).toList =
      a.toList ++ ('/' :: '\x7b' :: (x.toList ++ ('\x7d' :: '/' :: rest.toList))) := by
    simp only [toList_append, List.append_assoc]
    rfl
  have hform : (a ++ "/\x7b" ++ x ++ "\x7d/" ++ rest).toList =
      a.toList ++ (('/' :: '\x7b' :: (x.toList ++ ['\x7d', '/'])) ++ rest.toList) := by
    rw [hlist]
    simp [List.append_assoc]
  rw [hpat, hform]
  rw [replaceFirst_append_notin '/' _ _ a.toList _ hA]
  rw [replaceFirst_at_head]
  simp [toList_append, List.append_assoc]

theorem format_step_placeholder_found (vars : List (String × Value))
    (a x rest : String) (v : Value)
    (hA : ∀ c ∈ a.toList, c ≠ '/' ∧ c ≠ '\x7b' ∧ c ≠ '\x7d')
    (hX : ∀ c ∈ x.toList, c ≠ '/' ∧ c ≠ '\x7b' ∧ c ≠ '\x7d')
    (hT : pyStrip x = x) (hv : lookupVar vars x = some v) :
    format_step vars (a ++ "/\x7b" ++ x ++ "\x7d/" ++ rest) =
      .next (a ++ strOfValue v ++ rest) := by
  rw [format_step_placeholder vars a x rest hA hX hT, hv]
  show FmtStep.next (replaceFirstStr (a ++ "/\x7b" ++ x ++ "\x7d/" ++ rest)
      ("/\x7b" ++ x ++ "\x7d/") (strOfValue v)) = FmtStep.next (a ++ strOfValue v ++ rest)
  rw [replaceFirstStr_placeholder a x rest v (fun c hc => (hA c hc).1)]

theorem format_step_placeholder_missing (vars : List (String × Value))
    (a x rest : String)
    (hA : ∀ c ∈ a.toList, c ≠ '/' ∧ c ≠ '\x7b' ∧ c ≠ '\x7d')
    (hX : ∀ c ∈ x.toList, c ≠ '/' ∧ c ≠ '\x7b' ∧ c ≠ '\x7d')
    (hT : pyStrip x = x) (hn : lookupVar vars x = none) :
    format_step vars (a ++ "/\x7b" ++ x ++ "\x7d/" ++ rest) =
      .fail (.syntaxError ("Undefined variable in string: " ++ x)) := by
  rw [format_step_placeholder vars a x rest hA hX hT, hn]

theorem format_step_no_slash (vars : List (String × Value)) (t : String)
    (h : ∀ c ∈ t.toList, c ≠ '/') :
    format_step vars t = .done t := by
  unfold format_step
  have hnc : strContains t "/\x7b" = false := by
    unfold strContains
    rw [show ("/\x7b" : String).toList = ['/', '\x7b'] from rfl]
    rw [idxOfSub_none_notin '/' ['\x7b'] _ h]
    rfl
  rw [hnc]
  rfl

theorem str_empty_append (t : String) : ("" : String) ++ t = t := by
  apply string_eq_of_toList
  rw [toList_append]
  rfl

theorem format_multi (vars : List (String × Value)) :
    ∀ (segs : List (String × String)) (pre tail : String),
    (∀ c ∈ pre.toList, c ≠ '/' ∧ c ≠ '\x7b' ∧ c ≠ '\x7d') →
    (∀ p ∈ segs,
      (∀ c ∈ (Prod.fst p).toList, c ≠ '/' ∧ c ≠ '\x7b' ∧ c ≠ '\x7d') ∧
      (∀ c ∈ (Prod.snd p).toList, c ≠ '/' ∧ c ≠ '\x7b' ∧ c ≠ '\x7d') ∧
      pyStrip (Prod.snd p) = Prod.snd p ∧
      (∃ v, lookupVar vars (Prod.snd p) = some v ∧
        (∀ c ∈ (strOfValue v).toList, c ≠ '/' ∧ c ≠ '\x7b' ∧ c ≠ '\x7d'))) →
    (∀ c ∈ tail.toList, c ≠ '/' ∧ c ≠ '\x7b' ∧ c ≠ '\x7d') →
    format_string_fuel (segs.length + 1) vars (pre ++ buildTemplate segs tail) =
      .ok (pre ++ substTemplate vars segs tail) := by
  intro segs
  induction segs with
  | nil =>
      intro pre tail hpre _ htail
      have hsl : ∀ c ∈ (pre ++ tail).toList, c ≠ '/' := by
        intro c hc
        simp only [toList_append] at hc
        rcases List.mem_append.mp hc with hc | hc
        · exact (hpre c hc).1
        · exact (htail c hc).1
      exact format_string_fuel_done (n := 0) (format_step_no_slash vars _ hsl)
  | cons hd rest ih =>
      intro pre tail hpre hsegs htail
      rcases hd with ⟨seg, x⟩
      obtain ⟨hseg, hx, hxt, v, hv, hval⟩ := hsegs (seg, x) (by simp)
      have hA : ∀ c ∈ (pre ++ seg).toList, c ≠ '/' ∧ c ≠ '\x7b' ∧ c ≠ '\x7d' := by
        intro c hc
        simp only [toList_append] at hc
        rcases List.mem_append.mp hc with hc | hc
        · exact hpre c hc
        · exact hseg c hc
      have hshape : pre ++ buildTemplate ((seg, x) :: rest) tail =
          (pre ++ seg) ++ "/\x7b" ++ x ++ "\x7d/" ++ buildTemplate rest tail := by
        apply string_eq_of_toList
        show (pre ++ (seg ++ "/\x7b" ++ x ++ "\x7d/" ++ buildTemplate rest tail)).toList = _
        simp [toList_append, List.append_assoc]
      have hnext := format_step_placeholder_found vars (pre ++ seg) x
        (buildTemplate rest tail) v hA hx hxt hv
      have hpre' : ∀ c ∈ ((pre ++ seg) ++ strOfValue v).toList,
          c ≠ '/' ∧ c ≠ '\x7b' ∧ c ≠ '\x7d' := by
        intro c hc
        simp only [toList_append] at hc
        rcases List.mem_append.mp hc with hc | hc
        · rcases List.mem_append.mp hc with hc | hc
          · exact hpre c hc
          · exact hseg c hc
        · exact hval c hc
      have hrest : ∀ p ∈ rest,
          (∀ c ∈ (Prod.fst p).toList, c ≠ '/' ∧ c ≠ '\x7b' ∧ c ≠ '\x7d') ∧
          (∀ c ∈ (Prod.snd p).toList, c ≠ '/' ∧ c ≠ '\x7b' ∧ c ≠ '\x7d') ∧
          pyStrip (Prod.snd p) = Prod.snd p ∧
          (∃ w, lookupVar vars (Prod.snd p) = some w ∧
            (∀ c ∈ (strOfValue w).toList, c ≠ '/' ∧ c ≠ '\x7b' ∧ c ≠ '\x7d')) :=
        fun p hp => hsegs p (by simp [hp])
      rw [show ((seg, x) :: rest).length + 1 = rest.length + 1 + 1 from by simp]
      rw [hshape]
      rw [format_string_fuel_next hnext]
      rw [ih ((pre ++ seg) ++ strOfValue v) tail hpre' hrest htail]
      refine congrArg SMRes.ok (string_eq_of_toList ?_)
      simp only [substTemplate, hv, toList_append, List.append_assoc]

/-- Claim C4 (amended): for every template made of delimiter-free segments
interleaved with any number of placeholders whose enclosed texts already
equal their trimmed forms, with every named variable present and every
substituted value delimiter-free, `format_string` terminates and returns
the template with every placeholder occurrence replaced, one occurrence at
a time left to right, by the string form of the variable's value; a leading
placeholder naming an absent variable fails with `SyntaxError "Undefined
variable in string: <name>"`.  In general the loop does not terminate when
an enclosed text differs from its trimmed form (see the counterexample). -/
theorem c4_format_string_trimmed_multi (s : SMState)
    (segs : List (String × String)) (tail : String)
    (hsegs : ∀ p ∈ segs,
      (∀ c ∈ (Prod.fst p).toList, c ≠ '/' ∧ c ≠ '\x7b' ∧ c ≠ '\x7d') ∧
      (∀ c ∈ (Prod.snd p).toList, c ≠ '/' ∧ c ≠ '\x7b' ∧ c ≠ '\x7d') ∧
      pyStrip (Prod.snd p) = Prod.snd p)
    (htail : ∀ c ∈ tail.toList, c ≠ '/' ∧ c ≠ '\x7b' ∧ c ≠ '\x7d') :
    ((∀ p ∈ segs, ∃ v, lookupVar s.vars (Prod.snd p) = some v ∧
        (∀ c ∈ (strOfValue v).toList, c ≠ '/' ∧ c ≠ '\x7b' ∧ c ≠ '\x7d')) →
      format_string (segs.length + 1) s (buildTemplate segs tail) =
        (.ok (substTemplate s.vars segs tail), s) ∧
      FormatTerminates s.vars (buildTemplate segs tail)) ∧
    (∀ seg x rest, segs = (seg, x) :: rest →
      lookupVar s.vars x = none →
      format_string 1 s (buildTemplate segs tail) =
        (.err (.syntaxError ("Undefined variable in string: " ++ x)), s)) := by
  constructor
  · intro hbound
    have hmulti := format_multi s.vars segs "" tail
      (by
        intro c hc
        rw [show ("" : String).toList = [] from rfl] at hc
        exact absurd hc (List.not_mem_nil c))
      (fun p hp => ⟨(hsegs p hp).1, (hsegs p hp).2.1, (hsegs p hp).2.2, hbound p hp⟩)
      htail
    rw [str_empty_append, str_empty_append] at hmulti
    refine ⟨?_, ⟨segs.length + 1, ?_⟩⟩
    · unfold format_string
      rw [hmulti]
    · rw [hmulti]
      simp
  · intro seg x rest hseg hn
    subst hseg
    obtain ⟨h1, h2, h3⟩ := hsegs (seg, x) (by simp)
    have hfail := format_step_placeholder_missing s.vars seg x
      (buildTemplate rest tail) h1 h2 h3 hn
    have hh : format_string_fuel 1 s.vars (buildTemplate ((seg, x) :: rest) tail) =
        .err (.syntaxError ("Undefined variable in string: " ++ x)) :=
      format_string_fuel_fail (n := 0) hfail
    unfold format_string
    rw [hh]

/-- Claim C4 witness: a concrete two-placeholder delimiter-free template is
fully substituted. -/
theorem c4_witness :
    (∀ p ∈ ([("Sum: ", "x"), (" and ", "y")] : List (String × String)),
      (∀ c ∈ (Prod.fst p).toList, c ≠ '/' ∧ c ≠ '\x7b' ∧ c ≠ '\x7d') ∧
      (∀ c ∈ (Prod.snd p).toList, c ≠ '/' ∧ c ≠ '\x7b' ∧ c ≠ '\x7d') ∧
      pyStrip (Prod.snd p) = Prod.snd p) ∧
    (∀ c ∈ ("!" : String).toList, c ≠ '/' ∧ c ≠ '\x7b' ∧ c ≠ '\x7d') ∧
    format_string (([("Sum: ", "x"), (" and ", "y")] : List (String × String)).length + 1)
        { initState with vars := [("x", Value.vInt 2), ("y", Value.vInt 3)] }
        (buildTemplate [("Sum: ", "x"), (" and ", "y")] "!") =
      (.ok (substTemplate [("x", Value.vInt 2), ("y", Value.vInt 3)]
          [("Sum: ", "x"), (" and ", "y")] "!"),
        { initState with vars := [("x", Value.vInt 2), ("y", Value.vInt 3)] }) :=
  ⟨by decide, by decide,
    ((c4_format_string_trimmed_multi
        { initState with vars := [("x", Value.vInt 2), ("y", Value.vInt 3)] }
        [("Sum: ", "x"), (" and ", "y")] "!" (by decide) (by decide)).1
      (by
        intro p hp
        simp only [List.mem_cons, List.not_mem_nil, or_false] at hp
        rcases hp with rfl | rfl
        · exact ⟨Value.vInt 2, by decide, by decide⟩
        · exact ⟨Value.vInt 3, by decide, by decide⟩)).1⟩

theorem resolve_loop_fifo (inputs : List (Option String × String)) :
    ∀ (s : SMState) (stdin : List String), inputs.length ≤ stdin.length →
    ∃ s' rest, resolve_loop s inputs stdin =
      (.ok (), s', rest, inputTrace inputs stdin) := by
  induction inputs with
  | nil =>
      intro s stdin _
      exact ⟨s, stdin, rfl⟩
  | cons hd tl ih =>
      intro s stdin hlen
      rcases hd with ⟨var_name, prompt⟩
      cases stdin with
      | nil => simp at hlen
      | cons line stdin' =>
          have hlen' : tl.length ≤ stdin'.length := by simpa using hlen
          clear hlen
          obtain ⟨s', rest', hrec⟩ := ih
            (match var_name with
             | some n => { s with vars := (setVar s.vars n (match pyParseInt line with | some k => Value.vInt k | none => Value.vStr line)) }
             | none => s) stdin' hlen'
          refine ⟨s', rest', ?_⟩
          show resolve_loop s ((var_name, prompt) :: tl) (line :: stdin') = _
          simp only [resolve_loop]
          rw [hrec]
          rfl

theorem execute_eq (fuel : Nat) (s : SMState) (code : String) (stdin : List String) :
    execute fuel s code stdin =
      (match parse_lines s (pySplitNL (pyStrip code)) with
       | (.ok _, s1, ev1) =>
           (match resolve_inputs s1 stdin with
            | (.ok _, s2, _, ev2) =>
                (match handle_outputs fuel s2 with
                 | (r, s3, ev3) => (r, s3, ev1 ++ ev2 ++ ev3))
            | (.err e, s2, _, ev2) => (.err e, s2, ev1 ++ ev2)
            | (.divergent, s2, _, ev2) => (.divergent, s2, ev1 ++ ev2))
       | (.err e, s1, ev1) => (.err e, s1, ev1)
       | (.divergent, s1, ev1) => (.divergent, s1, ev1)) := rfl

/-- Claim C1: for every program whose parse pass succeeds and every stdin
stream long enough to serve all queued inputs, the input requests are
resolved in FIFO queue order — the resolution trace is exactly the queued
(prompt, read) pairs in queue order — and the whole execution trace is the
parse trace, then the full input-resolution trace, then the output-phase
trace: every input resolution completes before the first queued output or
wait entry is executed, regardless of how the source interleaved them. -/
theorem c1_inputs_resolved_fifo_before_outputs (fuel : Nat) (code : String)
    (stdin : List String)
    (hp : (parse_lines initState (pySplitNL (pyStrip code))).1 = .ok ())
    (hs : (parse_lines initState (pySplitNL (pyStrip code))).2.1.inputs.length ≤
      stdin.length) :
    ∃ (s1 s2 : SMState) (ptr : List Event) (rest : List String),
      parse_lines initState (pySplitNL (pyStrip code)) = (.ok (), s1, ptr) ∧
      resolve_inputs s1 stdin = (.ok (), s2, rest, inputTrace s1.inputs stdin) ∧
      execute fuel initState code stdin =
        ((handle_outputs fuel s2).1, (handle_outputs fuel s2).2.1,
          ptr ++ inputTrace s1.inputs stdin ++ (handle_outputs fuel s2).2.2) := by
  rcases hP : parse_lines initState (pySplitNL (pyStrip code)) with ⟨r1, s1, ptr⟩
  rw [hP] at hp hs
  simp at hp hs
  subst hp
  obtain ⟨s2, rest, hR⟩ := resolve_loop_fifo s1.inputs s1 stdin hs
  have hR' : resolve_inputs s1 stdin =
      (.ok (), s2, rest, inputTrace s1.inputs stdin) := hR
  refine ⟨s1, s2, ptr, rest, rfl, hR', ?_⟩
  rw [execute_eq, hP]
  show (match resolve_inputs s1 stdin with
        | (.ok _, s2, _, ev2) =>
            (match handle_outputs fuel s2 with
             | (r, s3, ev3) => (r, s3, ptr ++ ev2 ++ ev3))
        | (.err e, s2, _, ev2) => (.err e, s2, ptr ++ ev2)
        | (.divergent, s2, _, ev2) => (.divergent, s2, ptr ++ ev2)) = _
  rw [hR']

/-- Claim C1 witness: a program that queues an output before its input; the
prompt and read still precede the execution banner and the printed value. -/
theorem c1_witness :
    (parse_lines initState (pySplitNL (pyStrip
      "output(/\x7bx\x7d/)\nx = input(\"Enter x:\")\nend"))).1 = .ok () ∧
    (parse_lines initState (pySplitNL (pyStrip
      "output(/\x7bx\x7d/)\nx = input(\"Enter x:\")\nend"))).2.1.inputs.length ≤
      (["7"] : List String).length ∧
    (∃ (s1 s2 : SMState) (ptr : List Event) (rest : List String),
      parse_lines initState (pySplitNL (pyStrip
        "output(/\x7bx\x7d/)\nx = input(\"Enter x:\")\nend")) = (.ok (), s1, ptr) ∧
      resolve_inputs s1 ["7"] = (.ok (), s2, rest, inputTrace s1.inputs ["7"]) ∧
      execute 10 initState "output(/\x7bx\x7d/)\nx = input(\"Enter x:\")\nend" ["7"] =
        ((handle_outputs 10 s2).1, (handle_outputs 10 s2).2.1,
          ptr ++ inputTrace s1.inputs ["7"] ++ (handle_outputs 10 s2).2.2)) :=
  ⟨by decide, by decide,
    c1_inputs_resolved_fifo_before_outputs 10
      "output(/\x7bx\x7d/)\nx = input(\"Enter x:\")\nend" ["7"] (by decide) (by decide)⟩
